/-
  Verification development for the niscope pin-to-channel toolkit
  (src/src/nitsmdevtools/scope.py).

  The Python source is shallowly embedded: pure helpers become Lean
  functions, driver-facing operations become functions that return the
  list of driver calls they issue (an event trace) together with the
  value the Python function returns.  External collaborators (the
  semiconductor-module context and the pin-query context) are modelled
  as explicit inputs carrying exactly the data the code reads from them.
-/
import Mathlib

/- ------------------------------------------------------------------ -/
/- Generic list helpers used by the embedding and the statements.     -/
/- ------------------------------------------------------------------ -/

/-- Concatenation of the images of a list under a list-valued function. -/
def flatMapL {α β : Type} (f : α → List β) : List α → List β
  | [] => []
  | a :: l => f a ++ flatMapL f l

/-- Three-way zip, truncating to the shortest list, as Python zip does. -/
def zip3L {α β γ : Type} (a : List α) (b : List β) (c : List γ) : List (α × β × γ) :=
  a.zip (b.zip c)

/-- Four-way zip, truncating to the shortest list, as Python zip does. -/
def zip4L {α β γ δ : Type} (a : List α) (b : List β) (c : List γ) (d : List δ) :
    List (α × β × γ × δ) :=
  a.zip (b.zip (c.zip d))

/- ------------------------------------------------------------------ -/
/- Data model (scope.py lines 10-33).                                 -/
/- ------------------------------------------------------------------ -/

/-- One open instrument session.  The id stands for Python object
identity; io_resource_descriptor is the attribute of the same name. -/
structure ScopeSession where
  id : Nat
  io_resource_descriptor : String
deriving DecidableEq

/-- SSCScope named tuple: (session, channels, channel_list). -/
structure SSCScope where
  session : ScopeSession
  channels : String
  channel_list : String
deriving DecidableEq

/-- TSMScope named tuple: (pin_query_context, site_numbers, ssc).
The pin-query context is an opaque handle, modelled as Unit. -/
structure TSMScope where
  pin_query_context : Unit
  site_numbers : List Int
  ssc : List SSCScope
deriving DecidableEq

/-- PinType enum from scope.py. -/
inductive PinType where
  | DUT_Pin
  | System_Pin
  | Pin_Group
  | Not_Determined
deriving DecidableEq

/-- The numeric value of each PinType enum member. -/
def PinType.value : PinType → Nat
  | .DUT_Pin => 0
  | .System_Pin => 1
  | .Pin_Group => 2
  | .Not_Determined => 3

/-- PinsCluster named tuple: a per-session list of channel addresses. -/
structure PinsCluster where
  Pins : List String
deriving DecidableEq

/-- niscope.TriggerSlope values used by the code. -/
inductive TriggerSlope where
  | NEGATIVE
  | POSITIVE
deriving DecidableEq

/-- One driver call issued on a session.  Operations are embedded as
functions returning the list of such calls, in issue order. -/
inductive ScopeEvent where
  | configureTriggerImmediate (s : ScopeSession)
  | setExportedStartTriggerOutputTerminal (s : ScopeSession) (terminal : String)
  | commitSession (s : ScopeSession)
  | configureTriggerDigital (s : ScopeSession) (source : String) (slope : TriggerSlope)
  | initiateSession (s : ScopeSession)
  | abortSession (s : ScopeSession)
  | clearWaveformMeasurementStats (s : ScopeSession) (channels : String)
  | fetchMeasurementStats (s : ScopeSession) (channels : String) (scalarMeasFunction : Nat)
deriving DecidableEq

/- ------------------------------------------------------------------ -/
/- _expand_to_requested_array_size (scope.py lines 395-419).          -/
/- ------------------------------------------------------------------ -/

/-- A Python argument that is either a tuple or a scalar (anything
that is not a tuple takes the scalar branch of the isinstance test). -/
inductive PyData (α : Type) where
  | scalar (a : α)
  | tup (xs : List α)
deriving DecidableEq

/-- Outcome of a Python call: a value, or an uncaught exception. -/
inductive PyResult (α : Type) where
  | ok (val : α)
  | indexError
  | valueError (msg : String)
  | zeroDivisionError
deriving DecidableEq

/-- The tuple-branch loop of _expand_to_requested_array_size:
for each of requested_size steps, append data at cursor i, then reset
the cursor to 0 when i equals len(data), else increment it.  The reset
is checked only after the append, so the out-of-range access data at
len(data) happens before the reset can fire. -/
def expandLoop {α : Type} (data : List α) : Nat → Nat → PyResult (List α)
  | 0, _ => .ok []
  | k + 1, i =>
    match data.get? i with
    | none => .indexError
    | some v =>
      match expandLoop data k (if i = data.length then 0 else i + 1) with
      | .ok rest => .ok (v :: rest)
      | .indexError => .indexError
      | .valueError m => .valueError m
      | .zeroDivisionError => .zeroDivisionError

/-- The validation at the end of _expand_to_requested_array_size.
In Python, len(data) == 0 ^ requested_size == 0 parses as the chained
comparison len(data) == (0 ^ requested_size) == 0, i.e. it holds
exactly when len(data) and requested_size are both zero.  The second
disjunct requested_size % len(data) != 0 raises ZeroDivisionError when
len(data) = 0. -/
def expandValidate {α : Type} (dataLen requested_size : Nat) (out : List α) :
    PyResult (List α) :=
  if dataLen = requested_size ∧ requested_size = 0 then
    if dataLen = 0 ∨ requested_size = 0 then .valueError "Empty array input"
    else .valueError "Input array does not evenly distribute into sessions"
  else if dataLen = 0 then .zeroDivisionError
  else if requested_size % dataLen ≠ 0 then
    if dataLen = 0 ∨ requested_size = 0 then .valueError "Empty array input"
    else .valueError "Input array does not evenly distribute into sessions"
  else .ok out

/-- _expand_to_requested_array_size: tuple inputs go through the cursor
loop, any other input is wrapped as a one-element tuple and replicated;
then the (post-hoc) validation runs. -/
def expand_to_requested_array_size {α : Type} (data_in : PyData α)
    (requested_size : Nat) : PyResult (List α) :=
  match data_in with
  | .tup t =>
    match expandLoop t requested_size 0 with
    | .ok out => expandValidate t.length requested_size out
    | .indexError => .indexError
    | .valueError m => .valueError m
    | .zeroDivisionError => .zeroDivisionError
  | .scalar a => expandValidate 1 requested_size (List.replicate requested_size a)

/- ------------------------------------------------------------------ -/
/- Pin classification (scope.py lines 326-372).                       -/
/- ------------------------------------------------------------------ -/

/-- The data the code reads from the semiconductor-module context:
the DUT/system pin roster returned by get_pin_names, the full site
list, and the external pin-group expansion hook. -/
structure TSMContext where
  dutPins : List String
  systemPins : List String
  siteNumbers : List Int
  getPinsInPinGroup : List String → List String

/-- Python list.index wrapped in try/except: the index of the first
occurrence, or none (ValueError) when absent. -/
def pyIndexOf : List String → String → Option Nat
  | [], _ => none
  | y :: ys, x => if y = x then some 0 else (pyIndexOf ys x).map (· + 1)

/-- _get_all_pin_names.  The local cache variable pin_names is freshly
initialised to the empty list on every call, so the reload condition
len(pin_names) == 0 or reload_cache is always true and the roster is
always re-read from the context. -/
def get_all_pin_names (ctx : TSMContext) : List String × List PinType :=
  (ctx.dutPins ++ ctx.systemPins,
   List.replicate ctx.dutPins.length PinType.DUT_Pin ++
     List.replicate ctx.systemPins.length PinType.System_Pin)

/-- _identify_pin_types.  For each requested name, a roster hit appends
its roster type and resets pin_group_found to False; a miss appends
Pin_Group and sets pin_group_found to True.  The flag is overwritten on
every iteration, so it records only whether the last name missed. -/
def identify_pin_types (ctx : TSMContext) (pins_or_pins_group : List String) :
    List PinType × Bool :=
  pins_or_pins_group.foldl
    (fun acc pin =>
      match pyIndexOf (get_all_pin_names ctx).1 pin with
      | some i => (acc.1 ++ [(get_all_pin_names ctx).2.getD i PinType.Not_Determined], false)
      | none => (acc.1 ++ [PinType.Pin_Group], true))
    ([], false)

/-- _check_for_pin_group: classify the request; only when the final
pin_group_found flag is True, expand through the context and
re-classify the expanded names. -/
def check_for_pin_group (ctx : TSMContext) (pins_or_pins_group : List String) :
    List PinType × List String :=
  let r := identify_pin_types ctx pins_or_pins_group
  if r.2 then
    let pins := ctx.getPinsInPinGroup pins_or_pins_group
    ((identify_pin_types ctx pins).1, pins)
  else
    (r.1, pins_or_pins_group)

/- ------------------------------------------------------------------ -/
/- Per-channel expansion (scope.py lines 171-179).                    -/
/- ------------------------------------------------------------------ -/

/-- Python regex whitespace class (ASCII). -/
def isPySpace (c : Char) : Bool :=
  c == ' ' || c == '\t' || c == '\n' || c == '\r' || c == '\x0b' || c == '\x0c'

/-- Drop leading regex whitespace. -/
def trimLeadWS (l : List Char) : List Char := l.dropWhile isPySpace

/-- Drop trailing regex whitespace. -/
def trimTrailWS (l : List Char) : List Char := (l.reverse.dropWhile isPySpace).reverse

/-- Split a character list at every comma (the comma-occurrence
skeleton of re.split). -/
def splitOnComma : List Char → List (List Char)
  | [] => [[]]
  | c :: cs =>
    if c = ',' then [] :: splitOnComma cs
    else
      match splitOnComma cs with
      | [] => [[c]]
      | p :: ps => (c :: p) :: ps

/-- Trim every part after the first: each loses its leading
whitespace, and all but the last also lose trailing whitespace. -/
def trimRestWS : List (List Char) → List (List Char)
  | [] => []
  | [p] => [trimLeadWS p]
  | p :: ps => trimLeadWS (trimTrailWS p) :: trimRestWS ps

/-- re.split on the pattern comma-with-surrounding-whitespace: split at
each comma and strip the whitespace adjacent to each comma, keeping
whitespace at the two ends of the whole string. -/
def pyRegexSplitComma (l : List Char) : List (List Char) :=
  match splitOnComma l with
  | [] => []
  | [p] => [p]
  | p :: ps => trimTrailWS p :: trimRestWS ps

/-- Comma-join, inverse of the comma split on normalised strings. -/
def joinComma : List (List Char) → List Char
  | [] => []
  | [p] => p
  | p :: ps => p ++ ',' :: joinComma ps

/-- _expand_ssc_to_ssc_per_channel: one SSCScope per zipped pair of the
comma-split channels descriptor and comma-split channel_list.  zip
silently truncates to the shorter of the two splits. -/
def expand_ssc_to_ssc_per_channel (ssc : List SSCScope) : List SSCScope :=
  flatMapL
    (fun s =>
      ((pyRegexSplitComma s.channels.data).zip (pyRegexSplitComma s.channel_list.data)).map
        (fun p => ⟨s.session, String.mk p.1, String.mk p.2⟩))
    ssc

/- ------------------------------------------------------------------ -/
/- Channel-list resolver (scope.py lines 247-323).                    -/
/- ------------------------------------------------------------------ -/

/-- The single mutation of the resolver loop:
pins_array_for_session_input at cg gets its Pins list updated at ch.
Indices are assumed in range (Python would raise IndexError, which the
spec calls a fatal resolution defect). -/
def setPinAt : List PinsCluster → Nat → Nat → String → List PinsCluster
  | [], _, _, _ => []
  | a :: rest, 0, ch, v => ⟨a.Pins.set ch v⟩ :: rest
  | a :: rest, cg + 1, ch, v => a :: setPinAt rest cg ch v

/-- The inner loop of _pin_query_context_to_channel_list for one site:
zip the transposed per-site index rows with the pin names and types; a
pin of type value 1 (System_Pin) is written bare, every other type is
written with the Site prefix.  The tuple y is
(channel group index, channel index, pin, pin type). -/
def fillSiteRow (arrays : List PinsCluster) (cgRow chRow : List Nat)
    (pins : List String) (tys : List PinType) (siteNumber : Int) : List PinsCluster :=
  (zip4L cgRow chRow pins tys).foldl
    (fun a y =>
      if (y.2.2.2).value = 1 then setPinAt a y.1 y.2.1 y.2.2.1
      else setPinAt a y.1 y.2.1 ("Site" ++ toString siteNumber ++ "/" ++ y.2.2.1))
    arrays

/-- The outer loop of _pin_query_context_to_channel_list: zip the
transposed channel-group rows, transposed channel rows and the site
numbers, and fill site by site.  The tuple z is
(channel group row, channel row, site number). -/
def fillAllSites (arrays : List PinsCluster) (cgT chT : List (List Nat))
    (sites : List Int) (pins : List String) (tys : List PinType) : List PinsCluster :=
  (zip3L cgT chT sites).foldl
    (fun a z => fillSiteRow a z.1 z.2.1 pins tys z.2.2) arrays

/-- _pin_query_context_to_channel_list, with the data read from the two
context collaborators passed explicitly: numberOfPinsPerChannel,
channelGroupIndices and channelIndices come from
get_channel_group_and_channel_index (indexed pin-major, hence the
transposes), ctxSiteNumbers is tsm_context.site_numbers, and pins/tys
are the classified pin names and types (pin_names_return and
pin_types_return).  Returns (site_numbers_out, channel_list per
session). -/
def pin_query_context_to_channel_list (numberOfPinsPerChannel : List Nat)
    (channelGroupIndices channelIndices : List (List Nat))
    (siteNumbersIn ctxSiteNumbers : List Int)
    (pins : List String) (tys : List PinType) : List Int × List String :=
  let arrays := numberOfPinsPerChannel.map (fun n => PinsCluster.mk (List.replicate n ""))
  let sitesOut := if siteNumbersIn.length = 0 then ctxSiteNumbers else siteNumbersIn
  let filled := fillAllSites arrays channelGroupIndices.transpose
    channelIndices.transpose sitesOut pins tys
  (sitesOut, filled.map (fun c => String.intercalate "," c.Pins))

/-- The channel address the specification assigns to one (site, pin)
pair: the bare pin name for a system pin, the site-scoped form for
every other pin type. -/
def channelAddressSpec (site : Int) (pin : String) (ty : PinType) : String :=
  if ty = PinType.System_Pin then pin
  else "Site" ++ toString site ++ "/" ++ pin

/-- The write sequence the specification predicts for the resolver:
exactly one (channel group index, channel index, address) triple per
zipped (site, pin) pair, in site-major order. -/
def resolverWrites (cgT chT : List (List Nat)) (sites : List Int)
    (pins : List String) (tys : List PinType) : List (Nat × Nat × String) :=
  flatMapL
    (fun z =>
      (zip4L z.1 z.2.1 pins tys).map
        (fun y => (y.1, y.2.1, channelAddressSpec z.2.2 y.2.2.1 y.2.2.2)))
    (zip3L cgT chT sites)

/-- Apply one predicted write to the session slot arrays. -/
def applyWrite (arrays : List PinsCluster) (w : Nat × Nat × String) : List PinsCluster :=
  setPinAt arrays w.1 w.2.1 w.2.2

/- ------------------------------------------------------------------ -/
/- Operation layer (scope.py lines 582-585, 695-721, 760-775).        -/
/- ------------------------------------------------------------------ -/

/-- Python list.index for an element known to occur in the list: the
index of the first occurrence (0 on the unreachable empty list). -/
def indexOfFirst {α : Type} [DecidableEq α] : List α → α → Nat
  | [], _ => 0
  | y :: ys, x => if y = x then 0 else indexOfFirst ys x + 1

/-- One iteration of tsm_ssc_scope_export_start_triggers.  The entry
whose first occurrence in the full aggregate is at index 0 takes the
master branch: immediate trigger, exported start-trigger terminal,
commit, and the start-trigger path is recomputed from its resource
descriptor.  Every other entry takes the slave branch: digital edge on
the current start-trigger path with positive slope, then initiate.
The accumulator is (start_trigger, events so far). -/
def exportStep (full : List SSCScope) (output_terminal : String)
    (acc : String × List ScopeEvent) (ssc : SSCScope) : String × List ScopeEvent :=
  if indexOfFirst full ssc = 0 then
    ("/" ++ ssc.session.io_resource_descriptor ++ "/" ++ output_terminal,
     acc.2 ++
       [ScopeEvent.configureTriggerImmediate ssc.session,
        ScopeEvent.setExportedStartTriggerOutputTerminal ssc.session output_terminal,
        ScopeEvent.commitSession ssc.session])
  else
    (acc.1,
     acc.2 ++
       [ScopeEvent.configureTriggerDigital ssc.session acc.1 TriggerSlope.POSITIVE,
        ScopeEvent.initiateSession ssc.session])

/-- tsm_ssc_scope_export_start_triggers.  start_trigger begins as the
empty string; the guard on a non-empty ssc list is subsumed by folding
over the list (an empty list produces no events and keeps the empty
start_trigger).  Returns (driver-call trace, returned TSMScope,
returned start_trigger). -/
def tsm_ssc_scope_export_start_triggers (tsm : TSMScope) (output_terminal : String) :
    List ScopeEvent × TSMScope × String :=
  let r := tsm.ssc.foldl (exportStep tsm.ssc output_terminal) ("", [])
  (r.2, tsm, r.1)

/-- The three master-branch driver calls for the first entry. -/
def masterEvents (terminal : String) (s : SSCScope) : List ScopeEvent :=
  [ScopeEvent.configureTriggerImmediate s.session,
   ScopeEvent.setExportedStartTriggerOutputTerminal s.session terminal,
   ScopeEvent.commitSession s.session]

/-- The two slave-branch driver calls for a non-master entry. -/
def slaveEvents (start_trigger : String) (s : SSCScope) : List ScopeEvent :=
  [ScopeEvent.configureTriggerDigital s.session start_trigger TriggerSlope.POSITIVE,
   ScopeEvent.initiateSession s.session]

/-- The trace the claim predicts for the trigger export: the entry at
index 0 is configured as master, then every later entry is configured
as a slave on the exported path and initiated, in aggregate order. -/
def exportSpecTrace (ssc : List SSCScope) (terminal : String) : List ScopeEvent :=
  match ssc with
  | [] => []
  | m :: rest =>
    masterEvents terminal m ++
      flatMapL (slaveEvents ("/" ++ m.session.io_resource_descriptor ++ "/" ++ terminal)) rest

/-- tsm_ssc_scope_start_acquisition: abort then initiate each entry,
iterating the aggregate in reversed order. -/
def tsm_ssc_scope_start_acquisition (tsm : TSMScope) : List ScopeEvent × TSMScope :=
  (tsm.ssc.reverse.foldl
    (fun ev ssc => ev ++ [ScopeEvent.abortSession ssc.session,
                          ScopeEvent.initiateSession ssc.session]) [],
   tsm)

/-- scope_measure_statistics: per entry, clear the per-channel waveform
measurement stats, initiate, then fetch the measurement stats.  The
fetched values come from the driver and are represented by the fetch
events themselves; the Python function returns (tsm, stats). -/
def scope_measure_statistics (tsm : TSMScope) (scalar_meas_function : Nat) :
    List ScopeEvent × TSMScope :=
  (tsm.ssc.foldl
    (fun ev ssc => ev ++
      [ScopeEvent.clearWaveformMeasurementStats ssc.session ssc.channels,
       ScopeEvent.initiateSession ssc.session,
       ScopeEvent.fetchMeasurementStats ssc.session ssc.channels scalar_meas_function]) [],
   tsm)

/-- The abort operation (scope.py lines 582-585).  The loop body is the
bare expression ssc.session.abort: it reads the bound-method attribute
and discards it without calling it, so no driver call is issued. -/
def abort (tsm : TSMScope) : List ScopeEvent × TSMScope :=
  (tsm.ssc.foldl (fun ev _ssc => ev) [], tsm)

/- ------------------------------------------------------------------ -/
/- Concrete sessions and entries used by witnesses/counterexamples.   -/
/- ------------------------------------------------------------------ -/

def sessD1 : ScopeSession := ⟨0, "Dev1"⟩
def sessD2 : ScopeSession := ⟨1, "Dev2"⟩
def sessD3 : ScopeSession := ⟨2, "Dev3"⟩
def sscD1 : SSCScope := ⟨sessD1, "0", "Site0/A"⟩
def sscD2 : SSCScope := ⟨sessD2, "0", "Site1/A"⟩
def sscD3 : SSCScope := ⟨sessD3, "0", "Site2/A"⟩

/-- A normalised two-channel entry (no whitespace around the comma). -/
def sscRT : SSCScope := ⟨⟨3, "Dev4"⟩, "0,1", "Site0/A,Site0/B"⟩

/-- A two-channel entry whose channels descriptor carries a space after
the comma. -/
def sscWS : SSCScope := ⟨⟨4, "Dev5"⟩, "0, 1", "Site0/A,Site0/B"⟩

/- ------------------------------------------------------------------ -/
/- Theorems.                                                          -/
/- ------------------------------------------------------------------ -/

/-- A loop that only appends to its event accumulator equals the
accumulator followed by the concatenated per-element events. -/
theorem foldl_append_trace {α β : Type} (f : α → List β) :
    ∀ (l : List α) (init : List β),
      l.foldl (fun ev a => ev ++ f a) init = init ++ flatMapL f l := by
  intro l
  induction l with
  | nil => intro init; simp [flatMapL]
  | cons a l ih =>
    intro init
    simp only [List.foldl_cons, flatMapL]
    rw [ih]
    simp [List.append_assoc]

/-- A loop whose body leaves the accumulator unchanged returns it. -/
theorem foldl_const_trace {α β : Type} : ∀ (l : List α) (init : List β),
    l.foldl (fun ev _ => ev) init = init := by
  intro l
  induction l with
  | nil => intro init; rfl
  | cons a l ih => intro init; exact ih init

/-- Mapping first components over a zip recovers the first list when it
is no longer than the second. -/
theorem zip_map_fst {α β : Type} : ∀ (a : List α) (b : List β),
    a.length ≤ b.length → (a.zip b).map (fun p => p.1) = a := by
  intro a
  induction a with
  | nil => intro b _; rfl
  | cons x xs ih =>
    intro b h
    cases b with
    | nil => simp at h
    | cons y ys =>
      simp only [List.zip_cons_cons, List.map_cons]
      rw [ih ys (by simpa using h)]

/-- Mapping second components over a zip recovers the second list when
it is no longer than the first. -/
theorem zip_map_snd {α β : Type} : ∀ (a : List α) (b : List β),
    b.length ≤ a.length → (a.zip b).map (fun p => p.2) = b := by
  intro a
  induction a with
  | nil => intro b h; simp at h; simp [h]
  | cons x xs ih =>
    intro b h
    cases b with
    | nil => rfl
    | cons y ys =>
      simp only [List.zip_cons_cons, List.map_cons]
      rw [ih ys (by simpa using h)]

/-- The body of the resolver inner loop writes exactly the address the
specification predicts for the pair. -/
theorem resolver_step_eq (a : List PinsCluster) (cg ch : Nat) (pin : String)
    (ty : PinType) (site : Int) :
    (if ty.value = 1 then setPinAt a cg ch pin
     else setPinAt a cg ch ("Site" ++ toString site ++ "/" ++ pin)) =
    applyWrite a (cg, ch, channelAddressSpec site pin ty) := by
  cases ty <;> simp [PinType.value, channelAddressSpec, applyWrite]

/-- The resolver inner loop equals folding the predicted writes of one
site row. -/
theorem foldl_resolver_writes (site : Int) :
    ∀ (l : List (Nat × Nat × String × PinType)) (a : List PinsCluster),
      l.foldl
        (fun a y =>
          if (y.2.2.2).value = 1 then setPinAt a y.1 y.2.1 y.2.2.1
          else setPinAt a y.1 y.2.1 ("Site" ++ toString site ++ "/" ++ y.2.2.1)) a =
      (l.map (fun y => (y.1, y.2.1, channelAddressSpec site y.2.2.1 y.2.2.2))).foldl
        applyWrite a := by
  intro l
  induction l with
  | nil => intro a; rfl
  | cons y l ih =>
    intro a
    simp only [List.foldl_cons, List.map_cons]
    rw [resolver_step_eq a y.1 y.2.1 y.2.2.1 y.2.2.2 site]
    exact ih _

/-- The resolver outer loop equals folding all predicted writes. -/
theorem fillAllSites_eq_foldWrites (pins : List String) (tys : List PinType) :
    ∀ (zs : List (List Nat × List Nat × Int)) (a : List PinsCluster),
      zs.foldl (fun a z => fillSiteRow a z.1 z.2.1 pins tys z.2.2) a =
      (flatMapL
        (fun z =>
          (zip4L z.1 z.2.1 pins tys).map
            (fun y => (y.1, y.2.1, channelAddressSpec z.2.2 y.2.2.1 y.2.2.2))) zs).foldl
        applyWrite a := by
  intro zs
  induction zs with
  | nil => intro a; rfl
  | cons z zs ih =>
    intro a
    simp only [List.foldl_cons, flatMapL, List.foldl_append]
    rw [fillSiteRow, foldl_resolver_writes]
    exact ih _

/-- indexOfFirst finds a matching head at index 0. -/
theorem indexOfFirst_cons_self {α : Type} [DecidableEq α] (x : α) (l : List α) :
    indexOfFirst (x :: l) x = 0 := by
  simp [indexOfFirst]

/-- indexOfFirst skips a non-matching head. -/
theorem indexOfFirst_cons_ne {α : Type} [DecidableEq α] (y x : α) (l : List α)
    (h : y ≠ x) : indexOfFirst (y :: l) x = indexOfFirst l x + 1 := by
  simp [indexOfFirst, h]

/-- Folding the export step over entries that are not first occurrences
of index 0 keeps the start trigger and appends slave events in order. -/
theorem export_fold_slaves (full : List SSCScope) (terminal : String) (st : String) :
    ∀ (rest : List SSCScope) (ev : List ScopeEvent),
      (∀ s ∈ rest, indexOfFirst full s ≠ 0) →
      rest.foldl (exportStep full terminal) (st, ev) =
        (st, ev ++ flatMapL (slaveEvents st) rest) := by
  intro rest
  induction rest with
  | nil => intro ev _; simp [flatMapL]
  | cons s rest ih =>
    intro ev h
    have hs : indexOfFirst full s ≠ 0 := h s (List.mem_cons_self s rest)
    simp only [List.foldl_cons, exportStep, if_neg hs]
    rw [ih _ (fun s' hs' => h s' (List.mem_cons_of_mem s hs'))]
    simp [flatMapL, slaveEvents, List.append_assoc]

/-- C1: for every classified pin list, site list and per-(site, pin)
index rows, the resolver loop performs, for each zipped (site, pin)
pair, exactly one write into the session slot selected by the channel
group index at the position selected by the channel index, and the
written address is the bare pin name for a System_Pin and the
site-scoped form for every other pin type: the loop equals the fold of
the predicted one-write-per-pair sequence. -/
theorem channel_list_resolver_one_write_per_site_pin
    (arrays : List PinsCluster) (cgT chT : List (List Nat)) (sites : List Int)
    (pins : List String) (tys : List PinType) :
    fillAllSites arrays cgT chT sites pins tys =
      (resolverWrites cgT chT sites pins tys).foldl applyWrite arrays := by
  simp only [fillAllSites, resolverWrites]
  exact fillAllSites_eq_foldWrites pins tys (zip3L cgT chT sites) arrays

/-- C5 (amended): for every aggregate whose entry list is non-empty and
whose first entry does not occur again later in the list, the start
trigger export configures exactly the first entry as master (immediate
trigger, exported terminal, commit), returns the trigger path built
from that entry's resource descriptor and the terminal, and configures
every later entry as a positive-slope digital-edge slave on that path
and initiates it, in aggregate order; the master is not initiated by
this call. -/
theorem export_start_triggers_master_slave (pqc : Unit) (sn : List Int)
    (m : SSCScope) (rest : List SSCScope) (terminal : String) (hm : m ∉ rest) :
    tsm_ssc_scope_export_start_triggers ⟨pqc, sn, m :: rest⟩ terminal =
      (exportSpecTrace (m :: rest) terminal, ⟨pqc, sn, m :: rest⟩,
       "/" ++ m.session.io_resource_descriptor ++ "/" ++ terminal) := by
  have hmem : ∀ s ∈ rest, indexOfFirst (m :: rest) s ≠ 0 := by
    intro s hs
    have hne : m ≠ s := fun e => hm (e ▸ hs)
    rw [indexOfFirst_cons_ne m s rest hne]
    exact Nat.succ_ne_zero _
  have h1 : exportStep (m :: rest) terminal ("", []) m =
      ("/" ++ m.session.io_resource_descriptor ++ "/" ++ terminal, masterEvents terminal m) := by
    simp [exportStep, indexOfFirst_cons_self, masterEvents]
  have hfold : (m :: rest).foldl (exportStep (m :: rest) terminal) ("", []) =
      ("/" ++ m.session.io_resource_descriptor ++ "/" ++ terminal,
       masterEvents terminal m ++
         flatMapL (slaveEvents ("/" ++ m.session.io_resource_descriptor ++ "/" ++ terminal))
           rest) := by
    rw [List.foldl_cons, h1]
    exact export_fold_slaves (m :: rest) terminal _ rest (masterEvents terminal m) hmem
  simp [tsm_ssc_scope_export_start_triggers, hfold, exportSpecTrace]

/-- C5 witness: three pairwise distinct entries. -/
theorem export_start_triggers_master_slave_witness :
    sscD1 ∉ [sscD2, sscD3] ∧
    tsm_ssc_scope_export_start_triggers ⟨(), [0], [sscD1, sscD2, sscD3]⟩ "VAL_PFI_0" =
      (exportSpecTrace [sscD1, sscD2, sscD3] "VAL_PFI_0",
       ⟨(), [0], [sscD1, sscD2, sscD3]⟩,
       "/" ++ sscD1.session.io_resource_descriptor ++ "/" ++ "VAL_PFI_0") :=
  ⟨by decide,
   export_start_triggers_master_slave () [0] sscD1 [sscD2, sscD3] "VAL_PFI_0" (by decide)⟩

/-- C5 counterexample: when the first entry occurs again at index 2,
list.index resolves the duplicate to index 0, so the duplicate is
re-configured as master (and never initiated) instead of being made a
slave: the produced trace differs from the one the claim predicts. -/
theorem export_start_triggers_duplicate_counterexample :
    (tsm_ssc_scope_export_start_triggers ⟨(), [0], [sscD1, sscD2, sscD1]⟩ "VAL_PFI_0").1 ≠
      exportSpecTrace [sscD1, sscD2, sscD1] "VAL_PFI_0" := by
  decide

/-- C6: starting acquisition aborts then initiates each entry's
session, visiting the entries in exactly the reverse of aggregate
order, and returns the aggregate unchanged. -/
theorem start_acquisition_reverse_order (tsm : TSMScope) :
    (tsm_ssc_scope_start_acquisition tsm).1 =
      flatMapL
        (fun ssc => [ScopeEvent.abortSession ssc.session,
                     ScopeEvent.initiateSession ssc.session]) tsm.ssc.reverse ∧
    (tsm_ssc_scope_start_acquisition tsm).2 = tsm := by
  constructor
  · simp only [tsm_ssc_scope_start_acquisition]
    rw [foldl_append_trace
      (fun ssc : SSCScope => [ScopeEvent.abortSession ssc.session,
                              ScopeEvent.initiateSession ssc.session])
      tsm.ssc.reverse []]
    simp
  · rfl

/-- C9: the statistics measurement issues, for each entry in aggregate
order, clear-accumulators then initiate then fetch-statistics, so no
entry's statistic is fetched before that entry's accumulators were
cleared and its acquisition re-initiated in this call. -/
theorem measure_statistics_clear_initiate_fetch (tsm : TSMScope)
    (scalar_meas_function : Nat) :
    (scope_measure_statistics tsm scalar_meas_function).1 =
      flatMapL
        (fun ssc =>
          [ScopeEvent.clearWaveformMeasurementStats ssc.session ssc.channels,
           ScopeEvent.initiateSession ssc.session,
           ScopeEvent.fetchMeasurementStats ssc.session ssc.channels scalar_meas_function])
        tsm.ssc ∧
    (scope_measure_statistics tsm scalar_meas_function).2 = tsm := by
  constructor
  · simp only [scope_measure_statistics]
    rw [foldl_append_trace
      (fun ssc : SSCScope =>
        [ScopeEvent.clearWaveformMeasurementStats ssc.session ssc.channels,
         ScopeEvent.initiateSession ssc.session,
         ScopeEvent.fetchMeasurementStats ssc.session ssc.channels scalar_meas_function])
      tsm.ssc []]
    simp
  · rfl

/-- C10: the abort operation returns the aggregate but issues no driver
call at all: the loop body reads the bound method ssc.session.abort
without calling it, so no session is ever moved out of Armed/Acquired
by this function, contrary to the claim. -/
theorem abort_issues_no_driver_calls (tsm : TSMScope) :
    (abort tsm).1 = [] ∧ (abort tsm).2 = tsm := by
  refine ⟨?_, rfl⟩
  simp only [abort]
  exact foldl_const_trace tsm.ssc []

/-- The per-channel channels descriptors of the expansion of a single
entry are the first components of the zipped splits. -/
theorem expand_single_map_channels (s : SSCScope) :
    (expand_ssc_to_ssc_per_channel [s]).map (fun x => x.channels.data) =
      ((pyRegexSplitComma s.channels.data).zip
        (pyRegexSplitComma s.channel_list.data)).map (fun p => p.1) := by
  simp [expand_ssc_to_ssc_per_channel, flatMapL, List.map_map]

/-- The per-channel channel_list values of the expansion of a single
entry are the second components of the zipped splits. -/
theorem expand_single_map_channel_list (s : SSCScope) :
    (expand_ssc_to_ssc_per_channel [s]).map (fun x => x.channel_list.data) =
      ((pyRegexSplitComma s.channels.data).zip
        (pyRegexSplitComma s.channel_list.data)).map (fun p => p.2) := by
  simp [expand_ssc_to_ssc_per_channel, flatMapL, List.map_map]

/-- C8 (amended): for every entry whose comma-split channels descriptor
and comma-split channel_list have equal cardinality AND whose two
strings are normalised (each equals the comma-join of its own split
parts, i.e. no whitespace adjacent to a separating comma), per-channel
expansion followed by re-joining the per-channel channels values, and
likewise the per-channel channel_list values, of the expanded entries
originating from that entry reproduces both source strings exactly. -/
theorem expand_rejoin_round_trip (s : SSCScope)
    (hlen : (pyRegexSplitComma s.channels.data).length =
            (pyRegexSplitComma s.channel_list.data).length)
    (hch : joinComma (pyRegexSplitComma s.channels.data) = s.channels.data)
    (hcl : joinComma (pyRegexSplitComma s.channel_list.data) = s.channel_list.data) :
    String.mk (joinComma ((expand_ssc_to_ssc_per_channel [s]).map
        (fun x => x.channels.data))) = s.channels ∧
    String.mk (joinComma ((expand_ssc_to_ssc_per_channel [s]).map
        (fun x => x.channel_list.data))) = s.channel_list := by
  constructor
  · rw [expand_single_map_channels s,
      zip_map_fst (pyRegexSplitComma s.channels.data)
        (pyRegexSplitComma s.channel_list.data) (Nat.le_of_eq hlen),
      hch]
  · rw [expand_single_map_channel_list s,
      zip_map_snd (pyRegexSplitComma s.channels.data)
        (pyRegexSplitComma s.channel_list.data) (Nat.le_of_eq hlen.symm),
      hcl]

/-- C8 witness: a normalised two-channel entry round-trips. -/
theorem expand_rejoin_round_trip_witness :
    (pyRegexSplitComma sscRT.channels.data).length =
      (pyRegexSplitComma sscRT.channel_list.data).length ∧
    String.mk (joinComma ((expand_ssc_to_ssc_per_channel [sscRT]).map
        (fun x => x.channels.data))) = sscRT.channels ∧
    String.mk (joinComma ((expand_ssc_to_ssc_per_channel [sscRT]).map
        (fun x => x.channel_list.data))) = sscRT.channel_list :=
  ⟨by decide,
   (expand_rejoin_round_trip sscRT (by decide) (by decide) (by decide)).1,
   (expand_rejoin_round_trip sscRT (by decide) (by decide) (by decide)).2⟩

/-- C8 counterexample: an aggregate entry with a space after the comma
of its channels descriptor has equal split cardinalities (2 and 2), yet
re-joining the expanded per-channel channels values yields a string
that differs from the original: re.split discards the whitespace
adjacent to the comma, so the round-trip is not exact. -/
theorem expand_rejoin_whitespace_counterexample :
    (pyRegexSplitComma sscWS.channels.data).length =
      (pyRegexSplitComma sscWS.channel_list.data).length ∧
    String.mk (joinComma ((expand_ssc_to_ssc_per_channel [sscWS]).map
        (fun x => x.channels.data))) ≠ sscWS.channels := by
  exact ⟨by decide, by decide⟩

/-- C2: with roster DUT = [A, B], SYS = [Clk], group G1 = [A, B],
classifying [G1, Clk] does NOT expand the group: the roster hit on Clk
(the last name) resets pin_group_found to False, so the code returns
the two original names with G1 still classified Pin_Group, not the
three resolved pins the claim requires. -/
theorem classification_group_not_expanded :
    check_for_pin_group
      ⟨["A", "B"], ["Clk"], [0], fun _ => ["A", "B", "Clk"]⟩
      ["G1", "Clk"] =
      ([PinType.Pin_Group, PinType.System_Pin], ["G1", "Clk"]) :=
  rfl

/-- C7: expanding an entry whose channels descriptor has two parts but
whose channel_list has one does not fail: the zip silently drops the
second channel position and returns a single truncated entry. -/
theorem expand_truncates_unequal_lists :
    expand_ssc_to_ssc_per_channel [⟨⟨0, "Dev1"⟩, "0,1", "Site0/A"⟩] =
      [⟨⟨0, "Dev1"⟩, "0", "Site0/A"⟩] := by
  decide

/-- C3: broadcasting a scalar to 3 elements does yield 3 copies, but
broadcasting the length-2 tuple (10, 20) to 4 elements raises
IndexError instead of producing the round-robin [10, 20, 10, 20]: the
cursor reset to 0 is checked only after each append, so the loop reads
data at index 2 on its third step. -/
theorem expand_round_robin_crashes :
    expand_to_requested_array_size (PyData.tup [10, 20]) 4 = PyResult.indexError ∧
    expand_to_requested_array_size (PyData.scalar 7) 3 = PyResult.ok [7, 7, 7] :=
  ⟨rfl, rfl⟩

/-- C4: the error analysis of the claim fails on the code.  With a
length-2 tuple and target 0 the code returns the empty list with no
error (the claim requires an empty-input error); with an empty tuple
and target 0 the code raises the empty-input ValueError (the claim
allows it only when exactly one of the two is zero); with an empty
tuple and target 1 the code raises IndexError from the loop, not the
empty-input error. -/
theorem expand_error_cases_diverge :
    expand_to_requested_array_size (PyData.tup [10, 20]) 0 = PyResult.ok [] ∧
    expand_to_requested_array_size (PyData.tup ([] : List Nat)) 0 =
      PyResult.valueError "Empty array input" ∧
    expand_to_requested_array_size (PyData.tup ([] : List Nat)) 1 =
      PyResult.indexError :=
  ⟨rfl, rfl, rfl⟩
